import Mathlib

/-!
Shallow embedding of the Mergington High School activities service
(`src/app.py`): the in-memory activity catalog, the name-normalization
and lookup helpers, and the `get_activity` / `signup_for_activity`
endpoint handlers, together with proofs about them.

The catalog is modelled as an association list from display name to
activity record (Python dicts preserve insertion order).  Endpoint
handlers return `Except HTTPError _`, mirroring `raise HTTPException`;
`signup_for_activity` additionally returns the catalog after the call,
mirroring the in-place mutation of `activity["participants"]`.
-/

deriving instance DecidableEq for Except

set_option maxRecDepth 8000

namespace Mergington

/-- An activity record, as stored in the `activities` dict of `app.py`. -/
structure Activity where
  description : String
  schedule : String
  max_participants : Nat
  participants : List String
  deriving Repr, DecidableEq

/-- The catalog: insertion-ordered mapping from display name to activity. -/
abbrev Catalog := List (String × Activity)

/-- `raise HTTPException(status_code=..., detail=...)`. -/
structure HTTPError where
  status_code : Nat
  detail : String
  deriving Repr, DecidableEq

/-- Successful signup response body. -/
structure SignupOk where
  message : String
  current_participants : Nat
  deriving Repr, DecidableEq

/-- The seed catalog built at module import time (`activities` in `app.py`). -/
def activities : Catalog :=
  [ ("Chess Club",
      { description := "Learn strategies and compete in chess tournaments"
        schedule := "Fridays, 3:30 PM - 5:00 PM"
        max_participants := 12
        participants := ["michael@mergington.edu", "daniel@mergington.edu"] }),
    ("Programming Class",
      { description := "Learn programming fundamentals and build software projects"
        schedule := "Tuesdays and Thursdays, 3:30 PM - 4:30 PM"
        max_participants := 20
        participants := ["emma@mergington.edu", "sophia@mergington.edu"] }),
    ("Gym Class",
      { description := "Physical education and sports activities"
        schedule := "Mondays, Wednesdays, Fridays, 2:00 PM - 3:00 PM"
        max_participants := 30
        participants := ["john@mergington.edu", "olivia@mergington.edu"] }),
    ("Soccer Team",
      { description := "Join the school soccer team and compete in tournaments"
        schedule := "Tuesdays and Thursdays, 4:00 PM - 5:30 PM"
        max_participants := 22
        participants := [] }),
    ("Basketball Club",
      { description := "Practice basketball and participate in friendly matches"
        schedule := "Wednesdays, 3:00 PM - 4:30 PM"
        max_participants := 15
        participants := [] }),
    ("Drama Club",
      { description := "Explore acting and participate in school plays"
        schedule := "Mondays, 4:00 PM - 5:30 PM"
        max_participants := 20
        participants := [] }),
    ("Painting Workshop",
      { description := "Learn painting techniques and create your own artwork"
        schedule := "Thursdays, 3:30 PM - 5:00 PM"
        max_participants := 15
        participants := [] }),
    ("Math Club",
      { description := "Solve challenging math problems and prepare for competitions"
        schedule := "Fridays, 3:30 PM - 5:00 PM"
        max_participants := 10
        participants := [] }),
    ("Debate Team",
      { description := "Develop public speaking skills and participate in debates"
        schedule := "Tuesdays, 4:00 PM - 5:30 PM"
        max_participants := 12
        participants := [] }) ]

/-- The whitespace class of Python's `str.split()` / regex `\s` (ASCII part). -/
def isPySpace (c : Char) : Bool :=
  c = ' ' || c = '\t' || c = '\n' || c = '\r' || c = '\x0b' || c = '\x0c'

/-- `str.split()` with no arguments: split on runs of whitespace, dropping
empty pieces (so leading/trailing whitespace contributes nothing). -/
def pySplit : List Char → List Char → List (List Char)
  | [], [] => []
  | [], acc => [acc.reverse]
  | c :: cs, acc =>
    if isPySpace c then
      if acc.isEmpty then pySplit cs []
      else acc.reverse :: pySplit cs []
    else pySplit cs (c :: acc)

/-- `normalize_activity_name` in `app.py`:
`" ".join(name.strip().split()).lower()`. -/
def normalize_activity_name (name : String) : String :=
  ⟨(List.intercalate [' '] (pySplit name.data [])).map Char.toLower⟩

/-- The generator-with-`next` scan inside `get_activity_by_name`: the first
value whose normalized key equals the already-normalized needle. -/
def findByNormalized : Catalog → String → Option Activity
  | [], _ => none
  | (k, v) :: rest, norm =>
    if normalize_activity_name k = norm then some v else findByNormalized rest norm

/-- Resolution used by both endpoints: normalize the raw name, then scan. -/
def findActivity (cat : Catalog) (activity_name : String) : Option Activity :=
  findByNormalized cat (normalize_activity_name activity_name)

/-- `get_activity_by_name` in `app.py`: resolve or raise 404 carrying the
original (non-normalized) requested name. -/
def get_activity_by_name (cat : Catalog) (activity_name : String) :
    Except HTTPError Activity :=
  match findActivity cat activity_name with
  | some a => .ok a
  | none => .error ⟨404, "Activity '" ++ activity_name ++ "' not found"⟩

/-- The regex gate of `get_activity`: `re.match(r'^[a-zA-Z0-9\s]+$', name)`,
i.e. nonempty and every character a letter, digit or whitespace. -/
def validNamePattern (activity_name : String) : Bool :=
  !activity_name.data.isEmpty &&
    activity_name.data.all (fun c => c.isAlpha || c.isDigit || isPySpace c)

/-- `GET /activities/{activity_name}` handler (`get_activity` in `app.py`). -/
def get_activity (cat : Catalog) (activity_name : String) :
    Except HTTPError Activity :=
  if !validNamePattern activity_name then
    .error ⟨400, "Activity name can only contain letters, numbers and spaces"⟩
  else
    get_activity_by_name cat activity_name

/-- `SignupRequest.is_valid_domain`: `email.endswith("@mergington.edu")`. -/
def is_valid_domain (email : String) : Bool :=
  List.isSuffixOf "@mergington.edu".data email.data

/-- Replace the value of the first key whose normalization matches `norm`;
this is the association-list image of `activity["participants"].append(...)`
mutating the record that `get_activity_by_name` returned. -/
def updateFirst : Catalog → String → Activity → Catalog
  | [], _, _ => []
  | (k, v) :: rest, norm, newAct =>
    if normalize_activity_name k = norm then (k, newAct) :: rest
    else (k, v) :: updateFirst rest norm newAct

/-- `POST /activities/{activity_name}/signup` handler
(`signup_for_activity` in `app.py`): the response, paired with the catalog
state after the call. -/
def signup_for_activity (cat : Catalog) (activity_name email : String) :
    Except HTTPError SignupOk × Catalog :=
  if !is_valid_domain email then
    (.error ⟨400, "Only @mergington.edu email addresses are allowed"⟩, cat)
  else
    match findActivity cat activity_name with
    | none =>
      (.error ⟨404, "Activity '" ++ activity_name ++ "' not found"⟩, cat)
    | some activity =>
      if email ∈ activity.participants then
        (.error ⟨400, "Student '" ++ email ++
          "' is already signed up for this activity"⟩, cat)
      else if activity.participants.length ≥ activity.max_participants then
        (.error ⟨400, "Activity '" ++ activity_name ++ "' is already full"⟩, cat)
      else
        let newAct : Activity :=
          { activity with participants := activity.participants ++ [email] }
        (.ok { message := "Successfully signed up " ++ email ++ " for " ++ activity_name
               current_participants := newAct.participants.length },
         updateFirst cat (normalize_activity_name activity_name) newAct)

/-- One inbound request, as dispatched by the HTTP layer. -/
inductive Op where
  | list : Op
  | get (activity_name : String) : Op
  | signup (activity_name email : String) : Op

/-- Catalog state after serving one request: `list` and `get` are read-only,
`signup` may mutate. -/
def applyOp (cat : Catalog) : Op → Catalog
  | .list => cat
  | .get _ => cat
  | .signup n e => (signup_for_activity cat n e).2

/-- Catalog state after serving a sequence of requests. -/
def run (cat : Catalog) : List Op → Catalog
  | [] => cat
  | op :: ops => run (applyOp cat op) ops

/-- The two data-model invariants of §3 of the spec. -/
def Inv (cat : Catalog) : Prop :=
  ∀ kv ∈ cat, kv.2.participants.length ≤ kv.2.max_participants ∧
    kv.2.participants.Nodup

instance : DecidablePred Inv := fun cat =>
  inferInstanceAs (Decidable (∀ kv ∈ cat, _ ∧ _))

/-! ## Helper lemmas -/

/-- Every entry of the updated catalog either carries the new record or was
already present. -/
lemma mem_updateFirst {cat : Catalog} {norm : String} {x : Activity}
    {kv : String × Activity} (h : kv ∈ updateFirst cat norm x) :
    kv.2 = x ∨ kv ∈ cat := by
  induction cat with
  | nil => simp [updateFirst] at h
  | cons hd tl ih =>
    obtain ⟨k, v⟩ := hd
    by_cases hk : normalize_activity_name k = norm
    · simp only [updateFirst, if_pos hk, List.mem_cons] at h
      rcases h with h | h
      · left; rw [h]
      · right; exact List.mem_cons_of_mem _ h
    · simp only [updateFirst, if_neg hk, List.mem_cons] at h
      rcases h with h | h
      · right; simp [h]
      · rcases ih h with h2 | h2
        · exact Or.inl h2
        · exact Or.inr (List.mem_cons_of_mem _ h2)

/-- A record found by the scan is a value of the catalog. -/
lemma findByNormalized_mem {cat : Catalog} {norm : String} {a : Activity}
    (h : findByNormalized cat norm = some a) : ∃ k, (k, a) ∈ cat := by
  induction cat with
  | nil => simp [findByNormalized] at h
  | cons hd tl ih =>
    obtain ⟨k, v⟩ := hd
    by_cases hk : normalize_activity_name k = norm
    · simp only [findByNormalized, if_pos hk, Option.some.injEq] at h
      exact ⟨k, by simp [h]⟩
    · simp only [findByNormalized, if_neg hk] at h
      obtain ⟨k2, hk2⟩ := ih h
      exact ⟨k2, List.mem_cons_of_mem _ hk2⟩

/-- After updating the first normalized match, the scan finds the new record. -/
lemma findByNormalized_updateFirst {cat : Catalog} {norm : String}
    {a x : Activity} (h : findByNormalized cat norm = some a) :
    findByNormalized (updateFirst cat norm x) norm = some x := by
  induction cat with
  | nil => simp [findByNormalized] at h
  | cons hd tl ih =>
    obtain ⟨k, v⟩ := hd
    by_cases hk : normalize_activity_name k = norm
    · simp [updateFirst, findByNormalized, if_pos hk]
    · simp only [findByNormalized, if_neg hk] at h
      simp only [updateFirst, if_neg hk, findByNormalized]
      exact ih h

/-- Evaluation of `signup_for_activity` when every check passes. -/
lemma signup_success_core (cat : Catalog) (n e : String) (a : Activity)
    (hdom : is_valid_domain e = true)
    (hfind : findActivity cat n = some a)
    (hmem : e ∉ a.participants)
    (hcap : a.participants.length < a.max_participants) :
    signup_for_activity cat n e =
      (.ok { message := "Successfully signed up " ++ e ++ " for " ++ n
             current_participants := a.participants.length + 1 },
       updateFirst cat (normalize_activity_name n)
         { a with participants := a.participants ++ [e] }) := by
  simp [signup_for_activity, hdom, hfind, hmem, Nat.not_le.mpr hcap]

/-- Case analysis on `signup_for_activity`: either the call fails and the
catalog is returned unchanged, or every check passed, the response is the
success payload, and exactly the resolved record gained the email. -/
lemma signup_cases (cat : Catalog) (n e : String) :
    (signup_for_activity cat n e).2 = cat ∨
    ∃ a, findActivity cat n = some a ∧ e ∉ a.participants ∧
      a.participants.length < a.max_participants ∧
      signup_for_activity cat n e =
        (.ok { message := "Successfully signed up " ++ e ++ " for " ++ n
               current_participants := a.participants.length + 1 },
         updateFirst cat (normalize_activity_name n)
           { a with participants := a.participants ++ [e] }) := by
  by_cases hdom : is_valid_domain e
  · cases hfind : findActivity cat n with
    | none => left; simp [signup_for_activity, hdom, hfind]
    | some a =>
      by_cases hmem : e ∈ a.participants
      · left; simp [signup_for_activity, hdom, hfind, hmem]
      · by_cases hcap : a.participants.length < a.max_participants
        · exact Or.inr ⟨a, rfl, hmem, hcap,
            signup_success_core cat n e a (by simpa using hdom) hfind hmem hcap⟩
        · left
          simp [signup_for_activity, hdom, hfind, hmem, Nat.le_of_not_lt hcap]
  · left; simp [signup_for_activity, hdom]

/-- A single served request preserves the data-model invariants. -/
lemma inv_applyOp {cat : Catalog} (hInv : Inv cat) (op : Op) :
    Inv (applyOp cat op) := by
  cases op with
  | list => exact hInv
  | get _ => exact hInv
  | signup n e =>
    show Inv (signup_for_activity cat n e).2
    rcases signup_cases cat n e with h | ⟨a, hfind, hmem, hcap, heq⟩
    · rw [h]; exact hInv
    · rw [heq]
      intro kv hkv
      rcases mem_updateFirst hkv with h2 | h2
      · obtain ⟨k, hk⟩ := findByNormalized_mem hfind
        have ha := hInv (k, a) hk
        rw [h2]
        refine ⟨?_, ?_⟩
        · simpa using hcap
        · simp [List.nodup_append, ha.2, hmem]
      · exact hInv kv h2

/-- Serving any request sequence preserves the invariants. -/
lemma inv_run {cat : Catalog} (hInv : Inv cat) (ops : List Op) :
    Inv (run cat ops) := by
  induction ops generalizing cat with
  | nil => exact hInv
  | cons op ops ih => exact ih (inv_applyOp hInv op)

/-! ## Claim theorems -/

/-- C1: after any sequence of list/get/signup operations starting from the
seed catalog, every activity has at most `max_participants` participants and
no email occurs twice in its participant list. -/
theorem catalog_invariants_preserved : ∀ ops : List Op, Inv (run activities ops) :=
  fun ops => inv_run (by decide) ops

/-- C2: when the activity resolves, is not full, and does not already contain
the given in-domain email, signup succeeds, appends the email as the new last
element of that activity's participants, and returns the new length together
with the confirmation message. -/
theorem signup_success_appends (cat : Catalog) (n e : String) (a : Activity)
    (hdom : is_valid_domain e = true)
    (hfind : findActivity cat n = some a)
    (hmem : e ∉ a.participants)
    (hcap : a.participants.length < a.max_participants) :
    (signup_for_activity cat n e).1 =
      .ok { message := "Successfully signed up " ++ e ++ " for " ++ n
            current_participants := a.participants.length + 1 } ∧
    findActivity (signup_for_activity cat n e).2 n =
      some { a with participants := a.participants ++ [e] } := by
  have h := signup_success_core cat n e a hdom hfind hmem hcap
  refine ⟨by rw [h], ?_⟩
  rw [h]
  exact findByNormalized_updateFirst hfind

/-- C2 witness: the concrete scenario of the spec, on the seed catalog. -/
theorem signup_success_appends_witness :
    (signup_for_activity activities "Chess Club" "new@mergington.edu").1 =
      .ok { message := "Successfully signed up new@mergington.edu for Chess Club"
            current_participants := 3 } := by
  have h := signup_success_appends activities "Chess Club" "new@mergington.edu"
    { description := "Learn strategies and compete in chess tournaments"
      schedule := "Fridays, 3:30 PM - 5:00 PM"
      max_participants := 12
      participants := ["michael@mergington.edu", "daniel@mergington.edu"] }
    (by decide) (by decide) (by decide) (by decide)
  exact h.1

/-- C3: every failing signup leaves the catalog exactly as it was. -/
theorem failed_signup_leaves_catalog_unchanged (cat : Catalog) (n e : String)
    (err : HTTPError) (h : (signup_for_activity cat n e).1 = .error err) :
    (signup_for_activity cat n e).2 = cat := by
  rcases signup_cases cat n e with h2 | ⟨a, _, _, _, heq⟩
  · exact h2
  · rw [heq] at h
    exact absurd h (by simp)

/-- C3 witness: a duplicate signup on the seed catalog fails and the catalog
after the call is the seed catalog. -/
theorem failed_signup_leaves_catalog_unchanged_witness :
    (signup_for_activity activities "Chess Club" "michael@mergington.edu").2 =
      activities :=
  failed_signup_leaves_catalog_unchanged activities "Chess Club"
    "michael@mergington.edu"
    ⟨400, "Student 'michael@mergington.edu' is already signed up for this activity"⟩
    (by decide)

/-- C4: the fail-fast validation order. An out-of-domain email on a
nonexistent activity yields the domain error (400), not NotFound; an email
already signed up for a full activity yields the already-signed-up error,
not the full error. -/
theorem signup_validation_order (cat1 cat2 : Catalog) (n1 e1 n2 e2 : String)
    (a : Activity) :
    (is_valid_domain e1 = false → findActivity cat1 n1 = none →
      (signup_for_activity cat1 n1 e1).1 =
        .error ⟨400, "Only @mergington.edu email addresses are allowed"⟩) ∧
    (is_valid_domain e2 = true → findActivity cat2 n2 = some a →
      e2 ∈ a.participants → a.participants.length ≥ a.max_participants →
      (signup_for_activity cat2 n2 e2).1 =
        .error ⟨400, "Student '" ++ e2 ++
          "' is already signed up for this activity"⟩) := by
  constructor
  · intro hdom _
    simp [signup_for_activity, hdom]
  · intro hdom hfind hmem _
    simp [signup_for_activity, hdom, hfind, hmem]

/-- A one-activity catalog whose only activity is full: used to exercise the
duplicate-before-capacity branch of the validation order. -/
def fullCatalog : Catalog :=
  [ ("Art Club",
      { description := "d", schedule := "s", max_participants := 1
        participants := ["bob@mergington.edu"] }) ]

/-- C4 witness: both validation-order conjuncts at concrete inputs. -/
theorem signup_validation_order_witness :
    (signup_for_activity activities "Nonexistent Club" "someone@gmail.com").1 =
      .error ⟨400, "Only @mergington.edu email addresses are allowed"⟩ ∧
    (signup_for_activity fullCatalog "Art Club" "bob@mergington.edu").1 =
      .error ⟨400,
        "Student 'bob@mergington.edu' is already signed up for this activity"⟩ := by
  have h := signup_validation_order activities fullCatalog "Nonexistent Club"
    "someone@gmail.com" "Art Club" "bob@mergington.edu"
    { description := "d", schedule := "s", max_participants := 1
      participants := ["bob@mergington.edu"] }
  exact ⟨h.1 (by decide) (by decide),
    h.2 (by decide) (by decide) (by decide) (by decide)⟩

/-- C5: names that are equal after trimming, collapsing internal whitespace
and lowercasing resolve to the same activity record, both in the shared
lookup, in `get_activity_by_name`, and in the catalog that signup produces. -/
theorem normalized_names_resolve_identically (cat : Catalog) (n1 n2 : String)
    (h : normalize_activity_name n1 = normalize_activity_name n2) :
    findActivity cat n1 = findActivity cat n2 ∧
    (∀ a : Activity, get_activity_by_name cat n1 = .ok a ↔
      get_activity_by_name cat n2 = .ok a) ∧
    (∀ e : String,
      (signup_for_activity cat n1 e).2 = (signup_for_activity cat n2 e).2) := by
  have hf : findActivity cat n1 = findActivity cat n2 := by
    unfold findActivity
    rw [h]
  refine ⟨hf, ?_, ?_⟩
  · intro a
    unfold get_activity_by_name
    rw [hf]
    cases findActivity cat n2 <;> simp
  · intro e
    by_cases hdom : is_valid_domain e
    · cases hfind : findActivity cat n2 with
      | none => simp [signup_for_activity, hdom, hf, hfind]
      | some a =>
        by_cases hmem : e ∈ a.participants
        · simp [signup_for_activity, hdom, hf, hfind, hmem]
        · by_cases hcap : a.participants.length ≥ a.max_participants
          · simp [signup_for_activity, hdom, hf, hfind, hmem, hcap]
          · simp [signup_for_activity, hdom, hf, hfind, hmem, hcap, h]
    · simp [signup_for_activity, hdom]

/-- C5 witness: a lowercase and a mixed-case/extra-whitespace spelling of
Chess Club resolve identically on the seed catalog. -/
theorem normalized_names_resolve_identically_witness :
    findActivity activities "chess club" =
      findActivity activities "  Chess   CLUB " :=
  (normalized_names_resolve_identically activities "chess club"
    "  Chess   CLUB " (by decide)).1

/-- C6: a name failing the letters/digits/whitespace pattern makes `get`
fail with the 400 invalid-name error whatever the catalog holds; a name
passing the pattern but resolving to nothing makes `get` fail with a 404
whose message carries the original, non-normalized name. -/
theorem get_invalid_name_and_not_found (cat1 cat2 : Catalog) (n1 n2 : String) :
    (validNamePattern n1 = false →
      get_activity cat1 n1 =
        .error ⟨400, "Activity name can only contain letters, numbers and spaces"⟩) ∧
    (validNamePattern n2 = true → findActivity cat2 n2 = none →
      get_activity cat2 n2 =
        .error ⟨404, "Activity '" ++ n2 ++ "' not found"⟩) := by
  constructor
  · intro hpat
    simp [get_activity, hpat]
  · intro hpat hfind
    simp [get_activity, get_activity_by_name, hpat, hfind]

/-- C6 witness: `get("../etc")` is rejected as an invalid name and
`get("Nonexistent Club")` is a 404 naming the requested string. -/
theorem get_invalid_name_and_not_found_witness :
    get_activity activities "../etc" =
      .error ⟨400, "Activity name can only contain letters, numbers and spaces"⟩ ∧
    get_activity activities "Nonexistent Club" =
      .error ⟨404, "Activity 'Nonexistent Club' not found"⟩ := by
  have h := get_invalid_name_and_not_found activities activities "../etc"
    "Nonexistent Club"
  exact ⟨h.1 (by decide), h.2 (by decide) (by decide)⟩

/-- C7 counterexample: a rejected duplicate signup for Chess Club produces
the already-signed-up error, and its message does not contain the activity
name "Chess Club". -/
theorem already_signed_up_message_lacks_activity_name :
    (signup_for_activity activities "Chess Club" "michael@mergington.edu").1 =
      .error ⟨400,
        "Student 'michael@mergington.edu' is already signed up for this activity"⟩ ∧
    ¬ ("Chess Club".data <:+:
        ("Student 'michael@mergington.edu' is already signed up for this activity").data) := by
  decide

/-- C7 amended: the already-signed-up failure carries a message that includes
the offending email (the activity name does not appear in it). -/
theorem already_signed_up_message_contains_email (cat : Catalog) (n e : String)
    (a : Activity) (hdom : is_valid_domain e = true)
    (hfind : findActivity cat n = some a) (hmem : e ∈ a.participants) :
    (signup_for_activity cat n e).1 =
      .error ⟨400, "Student '" ++ e ++ "' is already signed up for this activity"⟩ ∧
    e.data <:+:
      ("Student '" ++ e ++ "' is already signed up for this activity").data := by
  refine ⟨by simp [signup_for_activity, hdom, hfind, hmem], ?_⟩
  refine ⟨"Student '".data, "' is already signed up for this activity".data, ?_⟩
  simp [String.data_append]

/-- C7 amended witness: the rejected duplicate signup of daniel@mergington.edu
carries his email inside the error message. -/
theorem already_signed_up_message_contains_email_witness :
    (signup_for_activity activities "Chess Club" "daniel@mergington.edu").1 =
      .error ⟨400,
        "Student 'daniel@mergington.edu' is already signed up for this activity"⟩ ∧
    "daniel@mergington.edu".data <:+:
      ("Student 'daniel@mergington.edu' is already signed up for this activity").data := by
  have h := already_signed_up_message_contains_email activities "Chess Club"
    "daniel@mergington.edu"
    { description := "Learn strategies and compete in chess tournaments"
      schedule := "Fridays, 3:30 PM - 5:00 PM"
      max_participants := 12
      participants := ["michael@mergington.edu", "daniel@mergington.edu"] }
    (by decide) (by decide) (by decide)
  exact ⟨h.1, h.2⟩

/-- C9: the duplicate check is exact case-sensitive string equality: an email
differing from an existing participant only in letter case signs up
successfully, leaving both spellings in the participants list. -/
theorem duplicate_check_is_case_sensitive (cat : Catalog) (n e1 e2 : String)
    (a : Activity)
    (hcase : e1.data.map Char.toLower = e2.data.map Char.toLower)
    (hfind : findActivity cat n = some a)
    (h1 : e1 ∈ a.participants)
    (h2 : e2 ∉ a.participants)
    (hdom : is_valid_domain e2 = true)
    (hcap : a.participants.length < a.max_participants) :
    (∃ r : SignupOk, (signup_for_activity cat n e2).1 = .ok r) ∧
    findActivity (signup_for_activity cat n e2).2 n =
      some { a with participants := a.participants ++ [e2] } ∧
    e1 ∈ a.participants ++ [e2] ∧ e2 ∈ a.participants ++ [e2] := by
  have h := signup_success_core cat n e2 a hdom hfind h2 hcap
  refine ⟨⟨_, by rw [h]⟩, ?_, ?_, ?_⟩
  · rw [h]
    exact findByNormalized_updateFirst hfind
  · exact List.mem_append_left _ h1
  · exact List.mem_append_right _ (by simp)

/-- C9 witness: with michael@mergington.edu already in Chess Club,
Michael@mergington.edu signs up successfully and both spellings are in the
resulting participant list. -/
theorem duplicate_check_is_case_sensitive_witness :
    (∃ r : SignupOk,
      (signup_for_activity activities "Chess Club" "Michael@mergington.edu").1 =
        .ok r) ∧
    findActivity
        (signup_for_activity activities "Chess Club" "Michael@mergington.edu").2
        "Chess Club" =
      some { description := "Learn strategies and compete in chess tournaments"
             schedule := "Fridays, 3:30 PM - 5:00 PM"
             max_participants := 12
             participants := ["michael@mergington.edu", "daniel@mergington.edu",
               "Michael@mergington.edu"] } := by
  have h := duplicate_check_is_case_sensitive activities "Chess Club"
    "michael@mergington.edu" "Michael@mergington.edu"
    { description := "Learn strategies and compete in chess tournaments"
      schedule := "Fridays, 3:30 PM - 5:00 PM"
      max_participants := 12
      participants := ["michael@mergington.edu", "daniel@mergington.edu"] }
    (by decide) (by decide) (by decide) (by decide) (by decide) (by decide)
  exact ⟨h.1, h.2.1⟩

/-- C10: signup applies no name-format validation: a name failing the
pattern that `get` enforces, and resolving to nothing, fails with the 404
not-found error naming the raw string, never with any 400 error. -/
theorem signup_skips_name_format_validation (cat : Catalog) (n e : String)
    (hdom : is_valid_domain e = true)
    (hpat : validNamePattern n = false)
    (hfind : findActivity cat n = none) :
    (signup_for_activity cat n e).1 =
      .error ⟨404, "Activity '" ++ n ++ "' not found"⟩ ∧
    ∀ d : String, (signup_for_activity cat n e).1 ≠ .error ⟨400, d⟩ := by
  have h1 : (signup_for_activity cat n e).1 =
      .error ⟨404, "Activity '" ++ n ++ "' not found"⟩ := by
    simp [signup_for_activity, hdom, hfind]
  refine ⟨h1, ?_⟩
  intro d hcontra
  rw [h1] at hcontra
  simp at hcontra

/-- C10 witness: signing up a valid in-domain email for "../etc" is a 404,
and in particular not the invalid-name 400 that `get` would produce. -/
theorem signup_skips_name_format_validation_witness :
    (signup_for_activity activities "../etc" "x@mergington.edu").1 =
      .error ⟨404, "Activity '../etc' not found"⟩ ∧
    (signup_for_activity activities "../etc" "x@mergington.edu").1 ≠
      .error ⟨400, "Activity name can only contain letters, numbers and spaces"⟩ := by
  have h := signup_skips_name_format_validation activities "../etc"
    "x@mergington.edu" (by decide) (by decide) (by decide)
  exact ⟨h.1, h.2 _⟩

end Mergington
